import Mathlib

/-
  Verification of the bef93 Befunge-93 interpreter (Rust sources
  src/befunge/playfield.rs and src/befunge/interpreter.rs) against its
  natural-language specification.

  Shallow embedding conventions:
  * Rust i64 values are modelled as Int. Rust division / remainder on i64
    truncate toward zero, so we use Int.tdiv and Int.tmod; i64 overflow is
    modelled where Rust exhibits it: + - * wrap around (wrap64 below, the
    release-build behavior), an overflowing / or % panics, and % by zero
    panics.
  * Rust String / str values are modelled as Lean String or List Char;
    str::len (a UTF-8 byte count) is modelled by byteLen below.
  * Rust Vec<T> is modelled as List T. The operand stack Vec grows at the
    end (push / pop at the end); we represent it with the TOP OF THE STACK
    AT THE HEAD of the list, so Vec::push is List.cons and Vec::pop takes
    the head.
  * Indexing a Vec with v[i as usize] for an i64 index i panics when i is
    negative (the cast wraps to a huge usize) or when i is not less than
    the length; idx? below returns none exactly in those cases, and a
    none result is propagated as the panic outcome.
  * Fallible Rust functions returning Result are modelled with Except or,
    where a panic is also possible, with the RustResult / Outcome types
    that have an explicit panic constructor.
-/

namespace Bef93

/-- The errors surfaced by the engine.  The Rust code has a single error
struct BefungeError(String) plus boxed strings; the constructors below
record which format string produced the error, with its numeric or textual
arguments:
* bounds x y: "Location (x, y) is out of bounds!" or "Initial program
  counter position (x, y) is out of bounds!"
* division b: "Cannot divide b by 0!" / "Cannot mod b by 0!"
* range v: "v is not a valid ASCII value (between 0 and 255 inclusive)!"
* parse s: "s is not a valid integer!" / "s is not a valid character!"
* decode c: "c is not a valid command!"
* other s: a boxed plain string (the unreachable char-conversion branch). -/
inductive EngineError
| bounds (x y : Int)
| division (b : Int)
| range (v : Int)
| parse (s : String)
| decode (c : Char)
| other (s : String)
deriving DecidableEq, Repr

/-- playfield.rs: enum Direction. -/
inductive Direction
| Up
| Down
| Left
| Right
deriving DecidableEq, Repr

/-- playfield.rs: struct Coord { x: i64, y: i64 }. -/
structure Coord where
  x : Int
  y : Int
deriving DecidableEq, Repr

/-- playfield.rs: struct Playfield. -/
structure Playfield where
  code_map : List (List Char)
  dimensions : Coord
  program_counter_position : Coord
  program_counter_direction : Direction
deriving DecidableEq, Repr

/-- Rust str::len of a line: the number of UTF-8 bytes. -/
def byteLen (l : List Char) : Nat :=
  (l.map Char.utf8Size).sum

/-- Rust str::lines removes the carriage return of a line that was
terminated by the two-character ending carriage return plus newline. -/
def stripCR (l : List Char) : List Char :=
  if l.getLast? = some '\r' then l.dropLast else l

/-- Rust str::lines: lines are split at a newline or at a carriage
return followed by a newline (only a carriage return that immediately
preceded a newline is removed; a final bare carriage return is kept),
and a final newline terminates the last line rather than starting an
empty one.  The empty string has no lines.  Concretely: split on the
newline character; every piece that was terminated by a newline loses a
trailing carriage return; a last piece not terminated by a newline is
kept as is. -/
def rustLines (s : List Char) : List (List Char) :=
  if s = [] then []
  else
    let pieces := s.splitOn '\n'
    if s.getLast? = some '\n' then
      pieces.dropLast.map stripCR
    else
      pieces.dropLast.map stripCR ++ [pieces.getLast?.getD []]

/-- Rust Iterator::max_by_key on the line iterator, keyed by str::len.
max_by_key returns the LAST maximal element, hence the non-strict
comparison while folding left. -/
def maxByKeyLen : List (List Char) → Option (List Char)
| [] => none
| l :: ls => some (ls.foldl (fun acc cur => if byteLen acc ≤ byteLen cur then cur else acc) l)

/-- playfield.rs, Playfield::new: the playfield width,
code.lines().max_by_key(|line| line.len()).unwrap_or("").len(). -/
def playfieldWidth (code : List Char) : Nat :=
  byteLen ((maxByKeyLen (rustLines code)).getD [])

/-- Rust format!("\x7b:<width$\x7d", line): left-align and pad with spaces up
to width, where the padding amount is measured in CHARACTERS (the
formatter compares width against line.chars().count()). -/
def padLine (width : Nat) (l : List Char) : List Char :=
  l ++ List.replicate (width - l.length) ' '

/-- playfield.rs, Playfield::new: the padded grid. -/
def buildCodeMap (code : List Char) : List (List Char) :=
  (rustLines code).map (padLine (playfieldWidth code))

/-- playfield.rs, Playfield::new. -/
def Playfield.new (code : List Char) (program_counter_position : Coord)
    (program_counter_direction : Direction) : Except EngineError Playfield :=
  let code_map := buildCodeMap code
  let width : Int := (playfieldWidth code : Nat)
  let height : Int := code_map.length
  if (program_counter_position.x > width ∨ program_counter_position.y > height)
      ∨ (program_counter_position.x < 0 ∨ program_counter_position.y < 0) then
    .error (.bounds program_counter_position.x program_counter_position.y)
  else
    .ok { code_map := code_map,
          dimensions := { x := width, y := height },
          program_counter_position := program_counter_position,
          program_counter_direction := program_counter_direction }

/-- Rust l[i as usize] for an i64 index i into a Vec: none models the
panic, which happens when i is negative (the usize cast wraps far past
any realistic length) or when i is at least the length. -/
def idx? {α : Type} (l : List α) (i : Int) : Option α :=
  if i < 0 then none else l.get? i.toNat

/-- A Rust call that can return a value, return an error, or panic. -/
inductive RustResult (α : Type)
| ok (a : α)
| err (e : EngineError)
| panic
deriving DecidableEq, Repr

/-- playfield.rs, Playfield::get_next_character: unchecked indexing at
the current program counter position; none models the panic when that
position lies outside the grid. -/
def Playfield.get_next_character (p : Playfield) : Option Char :=
  (idx? p.code_map p.program_counter_position.y).bind
    (fun row => idx? row p.program_counter_position.x)

/-- playfield.rs, Playfield::get_character_at. -/
def Playfield.get_character_at (p : Playfield) (position : Coord) : RustResult Char :=
  if (position.x < 0 ∨ position.y < 0)
      ∨ (position.x > p.dimensions.x ∨ position.y > p.dimensions.y) then
    .err (.bounds position.x position.y)
  else
    match idx? p.code_map position.y with
    | none => .panic
    | some row =>
      match idx? row position.x with
      | none => .panic
      | some c => .ok c

/-- playfield.rs, Playfield::set_character_at.  The ok outcome carries
the mutated playfield. -/
def Playfield.set_character_at (p : Playfield) (position : Coord) (value : Char) :
    RustResult Playfield :=
  if (position.x < 0 ∨ position.y < 0)
      ∨ (position.x > p.dimensions.x ∨ position.y > p.dimensions.y) then
    .err (.bounds position.x position.y)
  else
    match idx? p.code_map position.y with
    | none => .panic
    | some row =>
      match idx? row position.x with
      | none => .panic
      | some _ =>
        .ok { p with code_map :=
          p.code_map.set position.y.toNat (row.set position.x.toNat value) }

/-- playfield.rs, Playfield::update_program_counter.  Rust % on i64
truncates toward zero, hence Int.tmod, and PANICS on a zero divisor:
none models that panic, which can only arise for Down or Right on a
grid whose corresponding dimension is 0 (the execute loop's width-0
continue makes this unreachable during execution). -/
def Playfield.update_program_counter (p : Playfield) : Option Playfield :=
  match p.program_counter_direction with
  | .Up =>
    some { p with program_counter_position :=
      { x := p.program_counter_position.x,
        y := if p.program_counter_position.y = 0 then p.dimensions.y - 1
             else p.program_counter_position.y - 1 } }
  | .Down =>
    if p.dimensions.y = 0 then none
    else
      some { p with program_counter_position :=
        { x := p.program_counter_position.x,
          y := Int.tmod (p.program_counter_position.y + 1) p.dimensions.y } }
  | .Left =>
    some { p with program_counter_position :=
      { x := if p.program_counter_position.x = 0 then p.dimensions.x - 1
             else p.program_counter_position.x - 1,
        y := p.program_counter_position.y } }
  | .Right =>
    if p.dimensions.x = 0 then none
    else
      some { p with program_counter_position :=
        { x := Int.tmod (p.program_counter_position.x + 1) p.dimensions.x,
          y := p.program_counter_position.y } }

/-- interpreter.rs: enum Mode. -/
inductive Mode
| String
| Command
| Bridge
deriving DecidableEq, Repr

/-- interpreter.rs: struct Interpreter.  The output handle is modelled as
the list of characters written so far, the input handle as the list of
lines read_line will yield (each as the raw string the Rust call appends
to its buffer), and thread_rng as a list of pre-drawn random values
consumed by the ? instruction. -/
structure InterpState where
  playfield : Playfield
  stack : List Int
  output : List Char
  input : List String
  rng : List Nat
  mode : Mode
deriving DecidableEq, Repr

/-- Rust self.stack.pop().unwrap_or(0): remove and return the top of the
stack, or 0 leaving the empty stack unchanged.  The top of the Vec is the
head of the list here. -/
def pop : List Int → Int × List Int
| [] => (0, [])
| v :: rest => (v, rest)

/-- Rust read_line on the input handle: yields the next line;
at end of input read_line reads zero bytes, leaving the buffer as the
empty string. -/
def read_line : List String → String × List String
| [] => ("", [])
| l :: rest => (l, rest)

/-- Rust char::is_whitespace: the Unicode White_Space property. -/
def isRustWhitespace (c : Char) : Bool :=
  let n := c.toNat
  (0x09 ≤ n ∧ n ≤ 0x0d) ∨ n = 0x20 ∨ n = 0x85 ∨ n = 0xa0 ∨ n = 0x1680 ∨
    (0x2000 ≤ n ∧ n ≤ 0x200a) ∨ n = 0x2028 ∨ n = 0x2029 ∨ n = 0x202f ∨
    n = 0x205f ∨ n = 0x3000

/-- Rust str::trim: remove leading and trailing whitespace. -/
def rustTrim (l : List Char) : List Char :=
  ((l.dropWhile isRustWhitespace).reverse.dropWhile isRustWhitespace).reverse

/-- A maximal run of ASCII digits read as a number; none when the list is
empty or contains a non-digit. -/
def parseDigits (l : List Char) : Option Nat :=
  if l ≠ [] ∧ l.all (fun c => 48 ≤ c.toNat ∧ c.toNat ≤ 57) then
    some (l.foldl (fun acc c => 10 * acc + (c.toNat - 48)) 0)
  else none

/-- Rust str::parse::<i64> (i64::from_str): an optional sign followed by
one or more ASCII digits, also failing when the value overflows i64. -/
def parse_i64 (l : List Char) : Option Int :=
  match l with
  | '+' :: rest =>
    (parseDigits rest).bind (fun n => if (n : Int) ≤ 2 ^ 63 - 1 then some (n : Int) else none)
  | '-' :: rest =>
    (parseDigits rest).bind (fun n => if (n : Int) ≤ 2 ^ 63 then some (-(n : Int)) else none)
  | _ =>
    (parseDigits l).bind (fun n => if (n : Int) ≤ 2 ^ 63 - 1 then some (n : Int) else none)

/-- Rust str::parse::<char> (char::from_str): succeeds exactly when the
string consists of a single character. -/
def parse_char (l : List Char) : Option Char :=
  match l with
  | [c] => some c
  | _ => none

/-- Rust std::char::from_u32: some exactly on valid Unicode scalar
values. -/
def from_u32 (n : Nat) : Option Char :=
  if Nat.isValidChar n then some (Char.ofNat n) else none

/-- interpreter.rs, convert_int_to_char. -/
def convert_int_to_char (value : Int) : Except EngineError Char :=
  if value < 0 ∨ value > 255 then
    .error (.range value)
  else
    match from_u32 value.toNat with
    | some c => .ok c
    | none => .error (.other "Unable to convert ASCII value to a char")

/-- interpreter.rs, Interpreter::run_unary_operation.  The final
catch-all arm of the Rust match is the one reached for the output-char
instruction. -/
def run_unary_operation (st : InterpState) (operation : Char) : RustResult InterpState :=
  let (value, stack) := pop st.stack
  let st := { st with stack := stack }
  if operation = '!' then
    .ok { st with stack := (if value = 0 then 1 else 0) :: st.stack }
  else if operation = '_' then
    .ok { st with playfield := { st.playfield with
      program_counter_direction := if value = 0 then .Right else .Left } }
  else if operation = '|' then
    .ok { st with playfield := { st.playfield with
      program_counter_direction := if value = 0 then .Down else .Up } }
  else if operation = ':' then
    .ok { st with stack := value :: value :: st.stack }
  else if operation = '$' then
    .ok st
  else if operation = '.' then
    .ok { st with output := st.output ++ (toString value).data ++ [' '] }
  else
    match convert_int_to_char value with
    | .ok c => .ok { st with output := st.output ++ [c] }
    | .error e => .err e

/-- Two's-complement wraparound into the i64 range
[-2^63, 2^63): the release-build behavior of Rust + - * on i64
overflow.  The numerals are 2^63 and 2^64, written out so that kernel
evaluation does not unfold a power. -/
def wrap64 (n : Int) : Int :=
  (n + 9223372036854775808) % 18446744073709551616 - 9223372036854775808

/-- interpreter.rs, Interpreter::run_binary_operation.  The final
catch-all arm of the Rust match is the one reached for the get
instruction.  Rust i64 arithmetic: + - * wrap around in release builds
(wrap64; a debug build panics on overflow instead — no claim here
depends on an overflowing + - *); / and % truncate toward zero (Int.tdiv
and Int.tmod) and PANIC unconditionally, in every build, when the
division overflows, that is at dividend i64 minimum -2^63 and divisor
-1 (the zero-divisor panic is unreachable: the code tests a == 0
first). -/
def run_binary_operation (st : InterpState) (operation : Char) : RustResult InterpState :=
  let (a, stack1) := pop st.stack
  let (b, stack2) := pop stack1
  let st := { st with stack := stack2 }
  if operation = '+' then
    .ok { st with stack := wrap64 (b + a) :: st.stack }
  else if operation = '-' then
    .ok { st with stack := wrap64 (b - a) :: st.stack }
  else if operation = '*' then
    .ok { st with stack := wrap64 (b * a) :: st.stack }
  else if operation = '/' then
    if a = 0 then .err (.division b)
    else if b = -9223372036854775808 ∧ a = -1 then .panic
    else .ok { st with stack := Int.tdiv b a :: st.stack }
  else if operation = '%' then
    if a = 0 then .err (.division b)
    else if b = -9223372036854775808 ∧ a = -1 then .panic
    else .ok { st with stack := Int.tmod b a :: st.stack }
  else if operation = Char.ofNat 96 then
    .ok { st with stack := (if b > a then 1 else 0) :: st.stack }
  else if operation = '\\' then
    .ok { st with stack := b :: a :: st.stack }
  else
    match st.playfield.get_character_at { y := a, x := b } with
    | .ok c => .ok { st with stack := (c.toNat : Int) :: st.stack }
    | .err e => .err e
    | .panic => .panic

/-- interpreter.rs, Interpreter::run_other_operation.  The final
catch-all arm of the Rust match is the one reached for the input-char
instruction.  The ? instruction consumes the next pre-drawn random value
(gen_range(0, 4)); an exhausted random stream yields 0. -/
def run_other_operation (st : InterpState) (operation : Char) : RustResult InterpState :=
  if operation = ' ' then
    .ok st
  else if operation = '>' then
    .ok { st with playfield := { st.playfield with program_counter_direction := .Right } }
  else if operation = '<' then
    .ok { st with playfield := { st.playfield with program_counter_direction := .Left } }
  else if operation = '^' then
    .ok { st with playfield := { st.playfield with program_counter_direction := .Up } }
  else if operation = 'v' then
    .ok { st with playfield := { st.playfield with program_counter_direction := .Down } }
  else if operation = '?' then
    let (r, rng) := match st.rng with
      | [] => (0, [])
      | r :: rest => (r % 4, rest)
    .ok { st with rng := rng, playfield := { st.playfield with
      program_counter_direction :=
        if r = 0 then .Up else if r = 1 then .Down else if r = 2 then .Left
        else .Right } }
  else if operation = '"' then
    .ok { st with mode := .String }
  else if operation = '#' then
    .ok { st with mode := .Bridge }
  else if operation = 'p' then
    let (py, stack1) := pop st.stack
    let (px, stack2) := pop stack1
    let (popped_value, stack3) := pop stack2
    let st := { st with stack := stack3 }
    match convert_int_to_char popped_value with
    | .error e => .err e
    | .ok c =>
      match st.playfield.set_character_at { y := py, x := px } c with
      | .ok pf => .ok { st with playfield := pf }
      | .err e => .err e
      | .panic => .panic
  else if operation = '&' then
    let (line, rest) := read_line st.input
    let st := { st with input := rest }
    match parse_i64 (rustTrim line.data) with
    | some n => .ok { st with stack := n :: st.stack }
    | none => .err (.parse line)
  else
    let (line, rest) := read_line st.input
    let st := { st with input := rest }
    match parse_char (rustTrim line.data) with
    | some c => .ok { st with stack := (c.toNat : Int) :: st.stack }
    | none => .err (.parse line)

/-- One outcome of one iteration of the execute loop: next continues the
loop with the updated state, halt is the break on the terminate
instruction, err aborts with an error, panic models a Rust panic. -/
inductive StepResult
| next (st : InterpState)
| halt (st : InterpState)
| err (e : EngineError)
| panic
deriving DecidableEq, Repr

/-- interpreter.rs, one iteration of the loop in Interpreter::execute:
the width-0 continue, the fetch, the mode dispatch (with the Command-mode
instruction table), and the final update_program_counter. -/
def step (st : InterpState) : StepResult :=
  if st.playfield.dimensions.x = 0 then
    .next st
  else
    match st.playfield.get_next_character with
    | none => .panic
    | some curr_char =>
      let advance : InterpState → StepResult := fun s =>
        match s.playfield.update_program_counter with
        | some pf => .next { s with playfield := pf }
        | none => .panic
      match st.mode with
      | .Bridge => advance { st with mode := .Command }
      | .String =>
        if curr_char = '"' then advance { st with mode := .Command }
        else advance { st with stack := (curr_char.toNat : Int) :: st.stack }
      | .Command =>
        if 48 ≤ curr_char.toNat ∧ curr_char.toNat ≤ 57 then
          advance { st with stack := ((curr_char.toNat - 48 : Nat) : Int) :: st.stack }
        else if curr_char ∈ ['!', '_', '|', ':', '$', '.', ','] then
          match run_unary_operation st curr_char with
          | .ok s => advance s
          | .err e => .err e
          | .panic => .panic
        else if curr_char ∈ ['+', '-', '*', '/', '%', Char.ofNat 96, '\\', 'g'] then
          match run_binary_operation st curr_char with
          | .ok s => advance s
          | .err e => .err e
          | .panic => .panic
        else if curr_char ∈ [' ', '>', '<', '^', 'v', '?', '"', '#', 'p', '&', '~'] then
          match run_other_operation st curr_char with
          | .ok s => advance s
          | .err e => .err e
          | .panic => .panic
        else if curr_char = '@' then
          .halt st
        else
          .err (.decode curr_char)

/-- The overall outcome of running the execute loop for a bounded number
of iterations: done is a successful return (the terminate instruction was
reached), running means the loop had not finished within the bound. -/
inductive ExecResult
| done (st : InterpState)
| err (e : EngineError)
| panic
| running (st : InterpState)
deriving DecidableEq, Repr

/-- interpreter.rs, Interpreter::execute, with an explicit iteration
bound (the Rust loop is unbounded). -/
def run : Nat → InterpState → ExecResult
| 0, st => .running st
| fuel + 1, st =>
  match step st with
  | .next st2 => run fuel st2
  | .halt st2 => .done st2
  | .err e => .err e
  | .panic => .panic

/-- interpreter.rs, Interpreter::new: construct the playfield with the
given or default position and direction, an empty stack, and Command
mode. -/
def Interpreter.new (code : List Char) (input : List String) (rng : List Nat)
    (program_counter_position : Option Coord)
    (program_counter_direction : Option Direction) :
    Except EngineError InterpState :=
  (Playfield.new code (program_counter_position.getD { x := 0, y := 0 })
      (program_counter_direction.getD .Right)).map
    (fun pf =>
      { playfield := pf, stack := [], output := [], input := input,
        rng := rng, mode := .Command })

/-- The Hello World source from the specification scenario. -/
def helloSource : List Char := "64+\"!dlroW ,olleH\">:#,_@".data

/-- A concrete playfield used to instantiate universally quantified
theorems: the 5 by 1 grid of the source "5:.,@". -/
def pfDemo : Playfield :=
  { code_map := [['5', ':', '.', ',', '@']],
    dimensions := { x := 5, y := 1 },
    program_counter_position := { x := 0, y := 0 },
    program_counter_direction := .Right }

/-- A concrete interpreter state over pfDemo with empty stack, output,
input and random stream, used to instantiate theorems. -/
def stDemo : InterpState :=
  { playfield := pfDemo, stack := [], output := [], input := [],
    rng := [], mode := .Command }

/-- The interpreter state produced by construction from the empty
source. -/
def emptyState : InterpState :=
  { playfield :=
      { code_map := [], dimensions := { x := 0, y := 0 },
        program_counter_position := { x := 0, y := 0 },
        program_counter_direction := .Right },
    stack := [], output := [], input := [], rng := [], mode := .Command }

/- ------------------------------------------------------------------
   Helper lemmas shared by several claims.
   ------------------------------------------------------------------ -/

theorem toNat_ofNat_valid {n : Nat} (h : n.isValidChar) : (Char.ofNat n).toNat = n := by
  simp only [Char.ofNat, dif_pos h, Char.toNat, Char.ofNatAux]
  rfl

theorem get_character_at_err_iff (p : Playfield) (position : Coord) (e : EngineError) :
    p.get_character_at position = .err e ↔
      (e = .bounds position.x position.y ∧
        ((position.x < 0 ∨ position.y < 0) ∨
          (position.x > p.dimensions.x ∨ position.y > p.dimensions.y))) := by
  unfold Playfield.get_character_at
  split
  · rename_i h
    simp only [RustResult.err.injEq]
    exact ⟨fun he => ⟨he.symm, h⟩, fun hc => hc.1.symm⟩
  · rename_i h
    constructor
    · intro hc
      rcases h1 : idx? p.code_map position.y with _ | row <;> simp only [h1] at hc
      · exact absurd hc (by simp)
      · rcases h2 : idx? row position.x with _ | c <;> simp only [h2] at hc <;>
          exact absurd hc (by simp)
    · intro hc
      exact absurd hc.2 h

theorem set_character_at_err_iff (p : Playfield) (position : Coord) (v : Char)
    (e : EngineError) :
    p.set_character_at position v = .err e ↔
      (e = .bounds position.x position.y ∧
        ((position.x < 0 ∨ position.y < 0) ∨
          (position.x > p.dimensions.x ∨ position.y > p.dimensions.y))) := by
  unfold Playfield.set_character_at
  split
  · rename_i h
    simp only [RustResult.err.injEq]
    exact ⟨fun he => ⟨he.symm, h⟩, fun hc => hc.1.symm⟩
  · rename_i h
    constructor
    · intro hc
      rcases h1 : idx? p.code_map position.y with _ | row <;> simp only [h1] at hc
      · exact absurd hc (by simp)
      · rcases h2 : idx? row position.x with _ | c <;> simp only [h2] at hc <;>
          exact absurd hc (by simp)
    · intro hc
      exact absurd hc.2 h

theorem playfield_new_error_iff (code : List Char) (pos : Coord) (dir : Direction)
    (e : EngineError) :
    Playfield.new code pos dir = .error e ↔
      (e = .bounds pos.x pos.y ∧
        ((pos.x > (playfieldWidth code : Int) ∨ pos.y > ((buildCodeMap code).length : Int)) ∨
          (pos.x < 0 ∨ pos.y < 0))) := by
  unfold Playfield.new
  dsimp only
  split
  · rename_i h
    simp only [Except.error.injEq]
    exact ⟨fun he => ⟨he.symm, h⟩, fun hc => hc.1.symm⟩
  · rename_i h
    constructor
    · intro hc
      exact absurd hc (by simp)
    · intro hc
      exact absurd hc.2 h

/- ------------------------------------------------------------------
   The claims.
   ------------------------------------------------------------------ -/

/-- C1: the claim states that the bounds-checked read and write are
total, returning a character / playfield or a BoundsError with no other
failure mode — in particular no panic — for all positions, including a
coordinate exactly equal to the width or height.  The code violates
this: a coordinate equal to the dimension passes the bounds check (which
only tests coordinate > dimension) and the subsequent vector indexing
panics.  This theorem evaluates the code at the failing inputs: on the
5 by 1 grid of "5:.,@", reading or writing at (5, 0) and reading at
(0, 1) all panic. -/
theorem C1_boundary_panic :
    ∃ p, Playfield.new "5:.,@".data { x := 0, y := 0 } .Right = .ok p ∧
      p.dimensions = { x := 5, y := 1 } ∧
      p.get_character_at { x := 5, y := 0 } = .panic ∧
      p.set_character_at { x := 5, y := 0 } 'x' = .panic ∧
      p.get_character_at { x := 0, y := 1 } = .panic :=
  ⟨pfDemo, rfl, by decide, by decide, by decide, by decide⟩

/-- C2: the out-of-bounds test used by construction, get_character_at
and set_character_at reports a BoundsError exactly when x < 0, y < 0,
x > width or y > height; a coordinate equal to the dimension is not
reported as out of bounds; and constructing from "5:.,@" with initial
position (13333, 0) fails with a BoundsError. -/
theorem C2_bounds_test (p : Playfield) (pos : Coord) (v : Char) (code : List Char)
    (dir : Direction) (e : EngineError) :
    (p.get_character_at pos = .err e ↔
      (e = .bounds pos.x pos.y ∧
        (pos.x < 0 ∨ pos.y < 0 ∨ pos.x > p.dimensions.x ∨ pos.y > p.dimensions.y))) ∧
    (p.set_character_at pos v = .err e ↔
      (e = .bounds pos.x pos.y ∧
        (pos.x < 0 ∨ pos.y < 0 ∨ pos.x > p.dimensions.x ∨ pos.y > p.dimensions.y))) ∧
    (Playfield.new code pos dir = .error e ↔
      (e = .bounds pos.x pos.y ∧
        (pos.x < 0 ∨ pos.y < 0 ∨ pos.x > (playfieldWidth code : Int) ∨
          pos.y > ((buildCodeMap code).length : Int)))) ∧
    (0 ≤ p.dimensions.x → 0 ≤ pos.y → pos.y ≤ p.dimensions.y →
      ∀ e2, p.get_character_at { x := p.dimensions.x, y := pos.y } ≠ .err e2) ∧
    Playfield.new "5:.,@".data { x := 13333, y := 0 } .Right = .error (.bounds 13333 0) := by
  refine ⟨?_, ?_, ?_, ?_, rfl⟩
  · rw [get_character_at_err_iff]
    tauto
  · rw [set_character_at_err_iff]
    tauto
  · rw [playfield_new_error_iff]
    tauto
  · intro hdx hy0 hy1 e2 hc
    rw [get_character_at_err_iff] at hc
    rcases hc.2 with (h | h) <;> simp at h <;> omega

/-- C2 witness: the bounds-test theorem instantiated on the concrete
5 by 1 playfield of "5:.,@" at row 0, showing that the position (5, 0),
whose x coordinate equals the width, is not reported as out of
bounds. -/
theorem C2_bounds_test_witness :
    ∀ e2, pfDemo.get_character_at { x := 5, y := 0 } ≠ .err e2 := by
  have h := (C2_bounds_test pfDemo { x := 0, y := 0 } 'x' [] .Right
    (.bounds 0 0)).2.2.2.1 (by decide) (by decide) (by decide)
  exact h

set_option maxRecDepth 16384 in
/-- C3: executing "64+\"!dlroW ,olleH\">:#,_@" from the default initial
position (0, 0) and direction Right with an empty input channel
terminates successfully via the terminate instruction (the run reaches
the done outcome, which only the dispatch of the terminate instruction
produces) and writes exactly "Hello, World!" followed by a newline to
the output channel: projecting the output out of the done outcome yields
some of exactly that string. -/
theorem C3_hello_world :
    (match Interpreter.new helloSource [] [] none none with
     | .ok st0 =>
       match run 150 st0 with
       | .done stF => some stF.output
       | _ => none
     | .error _ => none) = some "Hello, World!\n".data := by
  rfl

/-- C4 counterexample: the claim states that whenever the first popped
value a is nonzero, / pushes b / a and % pushes b % a and no error
occurs; but Rust i64 division overflows and panics unconditionally at
dividend -2^63 and divisor -1.  On the concrete stack with top -1 and
-2^63 below it (a = -1 nonzero, b = -2^63, both representable i64
values, reachable for example through the input-number instruction),
both instructions panic and push nothing. -/
theorem C4_counterexample :
    (-1 : Int) ≠ 0 ∧
    run_binary_operation { stDemo with stack := [-1, -(2 ^ 63)] } '/' = .panic ∧
    run_binary_operation { stDemo with stack := [-1, -(2 ^ 63)] } '%' = .panic :=
  ⟨by decide, by decide, by decide⟩

/-- C4 amended: for every stack contents, dispatching / or % when the
first popped value a is 0 (including the implicit 0 popped from an empty
or one-element stack) fails with a DivisionError and pushes nothing;
when a is nonzero and (b, a) is not the overflowing pair (-2^63, -1),
/ pushes b / a and % pushes b % a (truncated toward zero) and no error
occurs; in the remaining case b = -2^63, a = -1 the i64 division
overflows and both instructions panic. -/
theorem C4_division_by_zero (st : InterpState) (a b : Int) (stack1 stack2 : List Int)
    (h1 : pop st.stack = (a, stack1))
    (h2 : pop stack1 = (b, stack2)) :
    (a = 0 →
      run_binary_operation st '/' = .err (.division b) ∧
      run_binary_operation st '%' = .err (.division b)) ∧
    (a ≠ 0 → ¬(b = -(2 ^ 63) ∧ a = -1) →
      run_binary_operation st '/' = .ok { st with stack := Int.tdiv b a :: stack2 } ∧
      run_binary_operation st '%' = .ok { st with stack := Int.tmod b a :: stack2 }) ∧
    (b = -(2 ^ 63) → a = -1 →
      run_binary_operation st '/' = .panic ∧
      run_binary_operation st '%' = .panic) := by
  unfold run_binary_operation
  simp only [h1, h2]
  refine ⟨?_, ?_, ?_⟩
  · intro h0
    subst h0
    exact ⟨by simp, by simp⟩
  · intro h0 hno
    have himp : b = -9223372036854775808 → ¬a = -1 := fun hb hA =>
      hno ⟨by rw [hb]; norm_num, hA⟩
    refine ⟨?_, ?_⟩ <;>
      · simp [h0]
        exact himp
  · intro hb ha
    subst hb
    subst ha
    exact ⟨by simp, by simp⟩

/-- C4 witness: the amended theorem instantiated on the concrete stacks
[0, 7] (a = 0, b = 7: DivisionError), [2, 7] (a = 2, b = 7: division
pushes 3 and modulo pushes 1) and [-1, -2^63] (the overflowing pair:
panic). -/
theorem C4_division_by_zero_witness :
    run_binary_operation { stDemo with stack := [0, 7] } '/' = .err (.division 7) ∧
    run_binary_operation { stDemo with stack := [2, 7] } '/' =
      .ok { stDemo with stack := [3] } ∧
    run_binary_operation { stDemo with stack := [2, 7] } '%' =
      .ok { stDemo with stack := [1] } ∧
    run_binary_operation { stDemo with stack := [-1, -(2 ^ 63)] } '%' = .panic := by
  refine ⟨?_, ?_, ?_, ?_⟩
  · exact ((C4_division_by_zero { stDemo with stack := [0, 7] } 0 7 [7] [] rfl rfl).1 rfl).1
  · exact ((C4_division_by_zero { stDemo with stack := [2, 7] } 2 7 [7] [] rfl rfl).2.1
      (by decide) (by decide)).1
  · exact ((C4_division_by_zero { stDemo with stack := [2, 7] } 2 7 [7] [] rfl rfl).2.1
      (by decide) (by decide)).2
  · exact ((C4_division_by_zero { stDemo with stack := [-1, -(2 ^ 63)] } (-1) (-(2 ^ 63))
      [-(2 ^ 63)] [] rfl rfl).2.2 rfl rfl).2

/-- C5: popping never fails and yields the value 0 on an empty stack:
pop is a total function sending a stack to its top value (default 0) and
its remainder, so every sequence of pops exceeding the pushes keeps
producing zeros; duplicate on an empty stack pushes two zeros, and a
binary operation on an empty stack receives 0 for both operands (shown
for addition and subtraction, whose results are 0 + 0 = 0 and
0 - 0 = 0). -/
theorem C5_empty_stack_pops (st : InterpState) (h : st.stack = []) :
    (∀ s : List Int, pop s = (s.headD 0, s.tail)) ∧
    pop st.stack = (0, []) ∧
    run_unary_operation st ':' = .ok { st with stack := [0, 0] } ∧
    run_binary_operation st '+' = .ok { st with stack := [0] } ∧
    run_binary_operation st '-' = .ok { st with stack := [0] } := by
  refine ⟨fun s => by cases s <;> rfl, ?_, ?_, ?_, ?_⟩ <;>
    rw [show st = { st with stack := ([] : List Int) } by cases st; simp_all] <;> rfl

/-- C5 witness: the empty-stack pop behavior on a concrete state with an
empty stack. -/
theorem C5_empty_stack_pops_witness :
    run_unary_operation stDemo ':' = .ok { stDemo with stack := [0, 0] } :=
  (C5_empty_stack_pops stDemo rfl).2.2.1

/-- C6: for every playfield with width and height at least 1 and current
position inside the grid, advancing succeeds (the zero-divisor panic of
the wrap computation is unreachable) and moves one cell in the current
direction with toroidal wraparound — Left from column 0 lands on column
width - 1, Right from column width - 1 lands on column 0, Up from row 0
lands on row height - 1, Down from row height - 1 lands on row 0, and a
non-edge move changes the moving coordinate by exactly one — the
dimensions are unchanged and the resulting position is again inside the
grid. -/
theorem C6_toroidal_advance (p : Playfield)
    (hw : 1 ≤ p.dimensions.x) (hh : 1 ≤ p.dimensions.y)
    (hx0 : 0 ≤ p.program_counter_position.x)
    (hx1 : p.program_counter_position.x < p.dimensions.x)
    (hy0 : 0 ≤ p.program_counter_position.y)
    (hy1 : p.program_counter_position.y < p.dimensions.y) :
    ∃ q, p.update_program_counter = some q ∧
      q.dimensions = p.dimensions ∧
      (0 ≤ q.program_counter_position.x ∧
        q.program_counter_position.x < p.dimensions.x ∧
        0 ≤ q.program_counter_position.y ∧
        q.program_counter_position.y < p.dimensions.y) ∧
      (p.program_counter_direction = .Left →
        q.program_counter_position =
          { x := if p.program_counter_position.x = 0 then p.dimensions.x - 1
                 else p.program_counter_position.x - 1,
            y := p.program_counter_position.y }) ∧
      (p.program_counter_direction = .Right →
        q.program_counter_position =
          { x := if p.program_counter_position.x = p.dimensions.x - 1 then 0
                 else p.program_counter_position.x + 1,
            y := p.program_counter_position.y }) ∧
      (p.program_counter_direction = .Up →
        q.program_counter_position =
          { x := p.program_counter_position.x,
            y := if p.program_counter_position.y = 0 then p.dimensions.y - 1
                 else p.program_counter_position.y - 1 }) ∧
      (p.program_counter_direction = .Down →
        q.program_counter_position =
          { x := p.program_counter_position.x,
            y := if p.program_counter_position.y = p.dimensions.y - 1 then 0
                 else p.program_counter_position.y + 1 }) := by
  have hR : Int.tmod (p.program_counter_position.x + 1) p.dimensions.x =
      (if p.program_counter_position.x = p.dimensions.x - 1 then 0
       else p.program_counter_position.x + 1) := by
    rw [Int.tmod_eq_emod (by omega) (by omega)]
    split
    · rename_i he
      rw [show p.program_counter_position.x + 1 = p.dimensions.x by omega]
      exact Int.emod_self
    · exact Int.emod_eq_of_lt (by omega) (by omega)
  have hD : Int.tmod (p.program_counter_position.y + 1) p.dimensions.y =
      (if p.program_counter_position.y = p.dimensions.y - 1 then 0
       else p.program_counter_position.y + 1) := by
    rw [Int.tmod_eq_emod (by omega) (by omega)]
    split
    · rename_i he
      rw [show p.program_counter_position.y + 1 = p.dimensions.y by omega]
      exact Int.emod_self
    · exact Int.emod_eq_of_lt (by omega) (by omega)
  cases hdir : p.program_counter_direction
  case Up =>
    refine ⟨{ p with program_counter_position :=
        { x := p.program_counter_position.x,
          y := if p.program_counter_position.y = 0 then p.dimensions.y - 1
               else p.program_counter_position.y - 1 } },
      ?_, rfl, ?_, fun h => Direction.noConfusion h, fun h => Direction.noConfusion h,
      fun _ => rfl, fun h => Direction.noConfusion h⟩
    · simp only [Playfield.update_program_counter, hdir]
    · dsimp only
      refine ⟨by omega, by omega, ?_, ?_⟩ <;> split <;> omega
  case Down =>
    have hyne : ¬p.dimensions.y = 0 := by omega
    refine ⟨{ p with program_counter_position :=
        { x := p.program_counter_position.x,
          y := Int.tmod (p.program_counter_position.y + 1) p.dimensions.y } },
      ?_, rfl, ?_, fun h => Direction.noConfusion h, fun h => Direction.noConfusion h,
      fun h => Direction.noConfusion h, fun _ => ?_⟩
    · simp only [Playfield.update_program_counter, hdir, if_neg hyne]
    · dsimp only
      rw [hD]
      refine ⟨by omega, by omega, ?_, ?_⟩ <;> split <;> omega
    · dsimp only
      rw [hD]
  case Left =>
    refine ⟨{ p with program_counter_position :=
        { x := if p.program_counter_position.x = 0 then p.dimensions.x - 1
               else p.program_counter_position.x - 1,
          y := p.program_counter_position.y } },
      ?_, rfl, ?_, fun _ => rfl, fun h => Direction.noConfusion h,
      fun h => Direction.noConfusion h, fun h => Direction.noConfusion h⟩
    · simp only [Playfield.update_program_counter, hdir]
    · dsimp only
      refine ⟨?_, ?_, by omega, by omega⟩ <;> split <;> omega
  case Right =>
    have hxne : ¬p.dimensions.x = 0 := by omega
    refine ⟨{ p with program_counter_position :=
        { x := Int.tmod (p.program_counter_position.x + 1) p.dimensions.x,
          y := p.program_counter_position.y } },
      ?_, rfl, ?_, fun h => Direction.noConfusion h, fun _ => ?_,
      fun h => Direction.noConfusion h, fun h => Direction.noConfusion h⟩
    · simp only [Playfield.update_program_counter, hdir, if_neg hxne]
    · dsimp only
      rw [hR]
      refine ⟨?_, ?_, by omega, by omega⟩ <;> split <;> omega
    · dsimp only
      rw [hR]

/-- C6 witness: the advancement theorem instantiated on the concrete
5 by 1 playfield of "5:.,@" positioned at column 0 facing Right. -/
theorem C6_toroidal_advance_witness :
    ∃ q, pfDemo.update_program_counter = some q ∧
      q.dimensions = pfDemo.dimensions ∧
      0 ≤ q.program_counter_position.x ∧
      q.program_counter_position.x < pfDemo.dimensions.x := by
  obtain ⟨q, h1, h2, h3, _⟩ := C6_toroidal_advance pfDemo (by decide) (by decide)
    (by decide) (by decide) (by decide) (by decide)
  exact ⟨q, h1, h2, h3.1, h3.2.1⟩

/-- C7: the character conversion used by the output-char and put
instructions succeeds exactly when 0 <= v <= 255, producing the Latin-1
character with code v, and fails with a RangeError otherwise; conversion
of 255 succeeds (producing U+00FF) while conversion of 5555 and of -333
both fail with a RangeError. -/
theorem C7_convert_int_to_char (v : Int) :
    (0 ≤ v ∧ v ≤ 255 → ∃ c, convert_int_to_char v = .ok c ∧ (c.toNat : Int) = v) ∧
    (v < 0 ∨ v > 255 → convert_int_to_char v = .error (.range v)) ∧
    convert_int_to_char 255 = .ok 'ÿ' ∧
    convert_int_to_char 5555 = .error (.range 5555) ∧
    convert_int_to_char (-333) = .error (.range (-333)) := by
  refine ⟨?_, ?_, rfl, rfl, rfl⟩
  · rintro ⟨h0, h1⟩
    have hv : ¬(v < 0 ∨ v > 255) := by omega
    have hvalid : Nat.isValidChar v.toNat := Or.inl (by omega)
    refine ⟨Char.ofNat v.toNat, ?_, ?_⟩
    · unfold convert_int_to_char from_u32
      rw [if_neg hv, if_pos hvalid]
    · rw [toNat_ofNat_valid hvalid]
      omega
  · intro h
    unfold convert_int_to_char
    rw [if_pos h]

/-- C7 witness: conversion applied at the in-range value 200 and the
out-of-range value 300. -/
theorem C7_convert_int_to_char_witness :
    (∃ c, convert_int_to_char 200 = .ok c ∧ (c.toNat : Int) = 200) ∧
    convert_int_to_char 300 = .error (.range 300) :=
  ⟨(C7_convert_int_to_char 200).1 (by norm_num),
    (C7_convert_int_to_char 300).2.1 (by norm_num)⟩

/-- C8 counterexample: the claim says the input-char instruction fails
with a ParseError whenever the supplied line is not exactly one
character, but the code trims whitespace before parsing: on the
two-character line "a " (the letter a followed by a space) the
instruction succeeds and pushes 97, the code of a. -/
theorem C8_counterexample :
    "a ".data.length ≠ 1 ∧
    run_other_operation { stDemo with input := ["a "] } '~' =
      .ok { stDemo with input := [], stack := [97] } :=
  ⟨by decide, by decide⟩

/-- C8 amended: the input-char instruction pushes the numeric code of
the single character of the WHITESPACE-TRIMMED line when that trimmed
line is exactly one character, and fails with a ParseError whenever the
trimmed line is not exactly one character. -/
theorem C8_amended_input_char (st : InterpState) (line : String) (rest : List String)
    (h : st.input = line :: rest) :
    (∀ c, rustTrim line.data = [c] →
      run_other_operation st '~' =
        .ok { st with input := rest, stack := (c.toNat : Int) :: st.stack }) ∧
    ((rustTrim line.data).length ≠ 1 →
      run_other_operation st '~' = .err (.parse line)) := by
  constructor
  · intro c hc
    unfold run_other_operation
    simp [h, read_line, hc, parse_char]
  · intro hlen
    have hpc : parse_char (rustTrim line.data) = none := by
      rcases hl : rustTrim line.data with _ | ⟨c, _ | ⟨d, t⟩⟩
      · rfl
      · rw [hl] at hlen
        simp at hlen
      · rfl
    unfold run_other_operation
    simp [h, read_line, hpc]

/-- C8 witness: the amended theorem instantiated on the line "a" (whose
trimmed form is the single character a, so 97 is pushed) from a concrete
state. -/
theorem C8_amended_input_char_witness :
    run_other_operation { stDemo with input := ["a"] } '~' =
      .ok { stDemo with input := [], stack := [97] } :=
  (C8_amended_input_char { stDemo with input := ["a"] } "a" [] rfl).1 'a' (by decide)

/- Supporting lemmas for C9 about the maximum line length. -/

theorem byteLen_foldl_max (ls : List (List Char)) (acc : List Char) :
    byteLen (ls.foldl (fun a c => if byteLen a ≤ byteLen c then c else a) acc) =
      max (byteLen acc) ((ls.map byteLen).foldr max 0) := by
  induction ls generalizing acc with
  | nil => simp
  | cons c ls ih =>
    simp only [List.foldl_cons, List.map_cons, List.foldr_cons, ih]
    split <;> omega

theorem playfieldWidth_eq_max (code : List Char) :
    playfieldWidth code = ((rustLines code).map byteLen).foldr max 0 := by
  unfold playfieldWidth maxByKeyLen
  cases h : rustLines code with
  | nil => simp [byteLen]
  | cons l ls =>
    simp only [Option.getD_some, List.map_cons, List.foldr_cons]
    rw [byteLen_foldl_max]

theorem length_le_byteLen (l : List Char) : l.length ≤ byteLen l := by
  induction l with
  | nil => simp [byteLen]
  | cons c t ih =>
    have h1 : 1 ≤ Char.utf8Size c := Char.utf8Size_pos c
    simp only [byteLen, List.map_cons, List.sum_cons, List.length_cons] at *
    omega

theorem byteLen_le_playfieldWidth (code : List Char) (l : List Char)
    (hl : l ∈ rustLines code) : byteLen l ≤ playfieldWidth code := by
  rw [playfieldWidth_eq_max]
  generalize rustLines code = ls at hl ⊢
  induction ls with
  | nil => cases hl
  | cons a t ih =>
    simp only [List.map_cons, List.foldr_cons]
    rcases List.mem_cons.mp hl with h | h
    · subst h
      omega
    · have := ih h
      omega

theorem byteLen_eq_length_of_ascii (l : List Char)
    (h : ∀ c ∈ l, Char.utf8Size c = 1) : byteLen l = l.length := by
  induction l with
  | nil => rfl
  | cons c t ih =>
    simp only [byteLen, List.map_cons, List.sum_cons, List.length_cons] at *
    rw [h c (List.mem_cons_self c t), ih (fun d hd => h d (List.mem_cons_of_mem c hd))]
    omega

/-- C9 counterexample: the claim says that for every source text every
row of the grid has identical length equal to the length of the longest
input line.  The code computes the width as the maximum UTF-8 BYTE
length of the lines but pads by CHARACTER count, so on the source
"éé\nabc" (first line two 2-byte characters, second line three 1-byte
characters) the rows have 4 characters each while the longest input line
has 3 characters, and measured in bytes the two rows have lengths 6 and
4, which are not identical either. -/
theorem C9_counterexample :
    ∃ p, Playfield.new "éé\nabc".data { x := 0, y := 0 } .Right = .ok p ∧
      p.code_map.map List.length = [4, 4] ∧
      (rustLines "éé\nabc".data).map List.length = [2, 3] ∧
      p.code_map.map byteLen = [6, 4] :=
  ⟨_, rfl, by decide, by decide, by decide⟩

/-- C9 amended: for every source text, construction succeeds at the
default position and every row of the grid has identical CHARACTER count
equal to the maximum UTF-8 BYTE length over the input lines (0 with no
rows for the empty source); shorter lines are right-padded with space
characters; the dimensions are (that maximum, number of lines).  When
every character of every line is a single-byte (ASCII) character this
maximum coincides with the length of the longest input line, recovering
the claim as stated. -/
theorem C9_amended_grid_padding (code : List Char) :
    ∃ p, Playfield.new code { x := 0, y := 0 } .Right = .ok p ∧
      (∀ row ∈ p.code_map, row.length = playfieldWidth code) ∧
      p.code_map = (rustLines code).map
        (fun l => l ++ List.replicate (playfieldWidth code - l.length) ' ') ∧
      p.dimensions = { x := (playfieldWidth code : Int),
                       y := ((rustLines code).length : Int) } ∧
      (code = [] → p.code_map = [] ∧ playfieldWidth code = 0) ∧
      ((∀ l ∈ rustLines code, ∀ c ∈ l, Char.utf8Size c = 1) →
        playfieldWidth code = ((rustLines code).map List.length).foldr max 0) := by
  refine ⟨{ code_map := buildCodeMap code,
            dimensions := { x := (playfieldWidth code : Int),
                            y := ((buildCodeMap code).length : Int) },
            program_counter_position := { x := 0, y := 0 },
            program_counter_direction := .Right }, ?_, ?_, ?_, ?_, ?_, ?_⟩
  · unfold Playfield.new
    dsimp only
    rw [if_neg (by push_neg; omega)]
  · intro row hrow
    simp only [buildCodeMap, List.mem_map] at hrow
    obtain ⟨l, hl, rfl⟩ := hrow
    have h1 : l.length ≤ playfieldWidth code :=
      le_trans (length_le_byteLen l) (byteLen_le_playfieldWidth code l hl)
    simp [padLine]
    omega
  · simp [buildCodeMap, padLine]
  · simp [buildCodeMap]
  · intro hcode
    subst hcode
    exact ⟨rfl, rfl⟩
  · intro hascii
    rw [playfieldWidth_eq_max]
    congr 1
    exact List.map_congr_left
      (fun l hl => byteLen_eq_length_of_ascii l (hascii l hl))

/-- C9 witness: the amended theorem instantiated on the empty source,
discharging both of its conditional parts there: no rows and width 0. -/
theorem C9_amended_grid_padding_witness :
    playfieldWidth [] = 0 ∧
    playfieldWidth [] = ((rustLines ([] : List Char)).map List.length).foldr max 0 := by
  obtain ⟨p, h1, h2, h3, h4, h5, h6⟩ := C9_amended_grid_padding []
  exact ⟨(h5 rfl).2, h6 (by decide)⟩

/-- For every state whose playfield has width 0, the execute loop hits
the continue branch, changes nothing, and therefore never finishes: it
stays running for every iteration bound. -/
theorem run_width_zero (st : InterpState) (h : st.playfield.dimensions.x = 0) :
    ∀ fuel, run fuel st = .running st := by
  intro fuel
  induction fuel with
  | zero => rfl
  | succ n ih =>
    have hs : step st = .next st := by
      unfold step
      rw [if_pos h]
    unfold run
    simp only [hs, ih]

/-- C10: for every interpreter constructed from a source whose grid
width is 0, execute never terminates and never crashes: for every number
of loop iterations the loop is still running — no step reaches the
terminal dispatch, returns an error, or panics. -/
theorem C10_empty_program (code : List Char) (input : List String) (rng : List Nat)
    (pos : Option Coord) (dir : Option Direction) (st0 : InterpState)
    (hok : Interpreter.new code input rng pos dir = .ok st0)
    (hw : playfieldWidth code = 0) :
    ∀ fuel, run fuel st0 = .running st0 := by
  have hx : st0.playfield.dimensions.x = 0 := by
    unfold Interpreter.new Playfield.new at hok
    dsimp only at hok
    split at hok
    · simp [Except.map] at hok
    · simp only [Except.map, Except.ok.injEq] at hok
      rw [← hok]
      simp [hw]
  exact run_width_zero st0 hx

/-- C10 witness: the empty-source interpreter (grid width 0) is still
running after 5 iterations. -/
theorem C10_empty_program_witness : run 5 emptyState = .running emptyState :=
  C10_empty_program [] [] [] none none emptyState rfl rfl 5

end Bef93
